import Mathlib

/-!
Verification development for the encrypted content-addressed proof pipeline
of the backend API repository.

The development shallowly embeds the four core components:
the key provider (app/services/kms_service.py), the envelope encryption
engine and proof orchestrator (app/services/data_proof_service.py), and the
pinning store client retry loop (app/services/pinata_service.py).

Modelling conventions:
- byte strings and text are both modelled as `List Nat`; `strBytes` turns a
  Lean string literal into its code-point list for readability;
- external library primitives (AES-GCM, SHA-256, base64, JSON
  serialization) are modelled as executable Lean functions that preserve
  exactly the properties the pipeline relies on: the AEAD cipher is an
  executable scheme whose decryption checks an authentication tag and
  inverts encryption under the same key and nonce, the digest is an
  executable nonempty-output hash, the base64 codec is an injective
  encoding with a verified decoder, and JSON values carry a canonical
  injective serialization with a verified decoder;
- randomness (fresh keys, nonces, timestamps) and network outcomes are
  explicit parameters of the embedded functions;
- Python truthiness of optional string arguments is modelled by `Option`
  plus emptiness tests where the source tests `if value:`.
-/

set_option maxRecDepth 100000

deriving instance DecidableEq for Except

/-- Unary self-delimiting encoding of a natural number: n ones then a zero. -/
def encNat : Nat → List Nat
  | 0 => [0]
  | n + 1 => 1 :: encNat n

/-- Decoder for `encNat`: counts leading ones up to the first zero. -/
def decNat : List Nat → Option (Nat × List Nat)
  | 0 :: rest => some (0, rest)
  | 1 :: rest => (decNat rest).map (fun p => (p.1 + 1, p.2))
  | _ => none

/-- Length-prefixed encoding of a raw byte list. -/
def encBytes (s : List Nat) : List Nat :=
  encNat s.length ++ s

/-- Decoder for `encBytes`. -/
def decBytes (l : List Nat) : Option (List Nat × List Nat) :=
  (decNat l).map (fun p => (p.2.take p.1, p.2.drop p.1))

/-- Character codes of a string literal, used to write byte-list constants. -/
def strBytes (s : String) : List Nat :=
  s.toList.map Char.toNat

/-!
JSON values. Python dictionaries preserve insertion order, so objects are
modelled as ordered field sequences; lookup takes the first occurrence,
which agrees with Python dictionaries on objects without duplicate keys
(the only kind the pipeline produces). The type is a mutual inductive so
that every function on it is structurally recursive and kernel-evaluable.
Numbers are modelled as naturals: no claim depends on numeric
representation.
-/

mutual

inductive Json where
  | null : Json
  | bool (b : Bool) : Json
  | num (n : Nat) : Json
  | str (s : List Nat) : Json
  | arr (xs : JsonList) : Json
  | obj (fs : JsonFields) : Json
deriving DecidableEq

inductive JsonList where
  | nil : JsonList
  | cons (hd : Json) (tl : JsonList) : JsonList
deriving DecidableEq

inductive JsonFields where
  | nil : JsonFields
  | cons (k : List Nat) (v : Json) (tl : JsonFields) : JsonFields
deriving DecidableEq

end

mutual

/-- Canonical serialization of a JSON value to bytes, modelling the
canonical json.dumps wire form: an executable injective serializer with a
verified decoder. -/
def jenc : Json → List Nat
  | .null => [0]
  | .bool b => [1, cond b 1 0]
  | .num n => 2 :: encNat n
  | .str s => 3 :: encBytes s
  | .arr xs => 4 :: (encNat (jlistLen xs) ++ jencList xs)
  | .obj fs => 5 :: (encNat (jfieldsLen fs) ++ jencFields fs)

/-- Serialization of an array body. -/
def jencList : JsonList → List Nat
  | .nil => []
  | .cons j tl => jenc j ++ jencList tl

/-- Serialization of an object body. -/
def jencFields : JsonFields → List Nat
  | .nil => []
  | .cons k v tl => encBytes k ++ jenc v ++ jencFields tl

/-- Number of elements of an array body. -/
def jlistLen : JsonList → Nat
  | .nil => 0
  | .cons _ tl => jlistLen tl + 1

/-- Number of fields of an object body. -/
def jfieldsLen : JsonFields → Nat
  | .nil => 0
  | .cons _ _ tl => jfieldsLen tl + 1

end

mutual

/-- Fuelled decoder for `jenc`. Fuel decreases on every recursive call so
the definition is structural and kernel-evaluable. -/
def jdec : Nat → List Nat → Option (Json × List Nat)
  | 0, _ => none
  | _ + 1, 0 :: rest => some (.null, rest)
  | _ + 1, 1 :: b :: rest => some (.bool (b == 1), rest)
  | _ + 1, 2 :: rest => (decNat rest).map (fun p => (.num p.1, p.2))
  | _ + 1, 3 :: rest => (decBytes rest).map (fun p => (.str p.1, p.2))
  | fuel + 1, 4 :: rest =>
    match decNat rest with
    | none => none
    | some (n, r1) =>
      match jdecList fuel n r1 with
      | none => none
      | some (xs, r2) => some (.arr xs, r2)
  | fuel + 1, 5 :: rest =>
    match decNat rest with
    | none => none
    | some (n, r1) =>
      match jdecFields fuel n r1 with
      | none => none
      | some (fs, r2) => some (.obj fs, r2)
  | _ + 1, _ => none

/-- Fuelled decoder for an array body of a known element count. -/
def jdecList : Nat → Nat → List Nat → Option (JsonList × List Nat)
  | 0, _, _ => none
  | _ + 1, 0, s => some (.nil, s)
  | fuel + 1, n + 1, s =>
    match jdec fuel s with
    | none => none
    | some (j, r1) =>
      match jdecList fuel n r1 with
      | none => none
      | some (tl, r2) => some (.cons j tl, r2)

/-- Fuelled decoder for an object body of a known field count. -/
def jdecFields : Nat → Nat → List Nat → Option (JsonFields × List Nat)
  | 0, _, _ => none
  | _ + 1, 0, s => some (.nil, s)
  | fuel + 1, n + 1, s =>
    match decBytes s with
    | none => none
    | some (k, r0) =>
      match jdec fuel r0 with
      | none => none
      | some (v, r1) =>
        match jdecFields fuel n r1 with
        | none => none
        | some (tl, r2) => some (.cons k v tl, r2)

end

/-- Model of the canonical JSON serialization json.dumps with compact
separators: serialize to the canonical byte form. -/
def json_dumps (j : Json) : List Nat := jenc j

/-- Model of json.loads: decode a byte string to a JSON value, failing on
input that is not a complete canonical serialization. -/
def json_loads (s : List Nat) : Option Json :=
  match jdec s.length s with
  | some (j, []) => some j
  | _ => none

/-!
External cryptographic primitives, modelled executably.
-/

/-- Model of the base64 codec used by the source (base64.b64encode): an
injective byte-to-text encoding; each input element is emitted as its two
base-16 digits. Only injectivity and the decoder inverse below are relied
on by the pipeline. -/
def b64encode : List Nat → List Nat
  | [] => []
  | b :: bs => b / 16 :: b % 16 :: b64encode bs

/-- Model of base64.b64decode: inverse of `b64encode`, failing on
odd-length input. -/
def b64decode : List Nat → Option (List Nat)
  | [] => some []
  | h :: l :: rest => (b64decode rest).map (fun bs => (h * 16 + l) :: bs)
  | _ => none

/-- Mixing step of the model hash. -/
def mixStep (a b : Nat) : Nat := (a * 131 + b + 7) % 65521

/-- Executable mixing fold used by the model tag and digest functions. -/
def mix (l : List Nat) : Nat := l.foldl mixStep 5381

/-- Authentication tag of the modelled AEAD cipher, keyed by key and nonce
over the message; two bytes wide. -/
def tagOf (key nonce msg : List Nat) : List Nat :=
  let h := mix (key ++ 997 :: nonce ++ 998 :: msg)
  [h / 256, h % 256]

/-- Model of AESGCM.encrypt with no associated data: authenticated
ciphertext carrying a tag over key, nonce and plaintext. Confidentiality
is not modelled; authenticity and invertibility are. -/
def gcmEncrypt (key nonce plaintext : List Nat) : List Nat :=
  tagOf key nonce plaintext ++ plaintext

/-- Model of AESGCM.decrypt: checks the authentication tag and recovers
the plaintext, failing (InvalidTag) when the tag does not verify. -/
def gcmDecrypt (key nonce ciphertext : List Nat) : Option (List Nat) :=
  let tag := ciphertext.take 2
  let body := ciphertext.drop 2
  if tag = tagOf key nonce body then some body else none

/-- Model of the SHA-256 hex digest hashlib.sha256(data).hexdigest(): an
executable digest function with nonempty output. Only determinism,
comparability and nonemptiness are relied on. -/
def sha256hex (data : List Nat) : List Nat :=
  let h := mix data
  let h2 := mix (999 :: data)
  [h / 256, h % 256, h2 / 256, h2 % 256]

/-!
Key provider: KMSService in app/services/kms_service.py. Randomness
(fresh keys, nonces) and remote AWS responses are explicit parameters;
a parameter value of none for an AWS response models an AWS client error
recovered inside the corresponding method.
-/

namespace KMSService

/-- Initialization outcome of KMSService: the kms_enabled flag (possibly
cleared by a failed AWS client initialization), whether an AWS KMS client
is held, and the configured AWS KMS key id. -/
structure State where
  kms_enabled : Bool
  aws_client : Bool
  aws_kms_key_id : Option (List Nat)
deriving DecidableEq

/-- Key spec string AES_256. -/
def specAES256 : List Nat := strBytes ("AES_256")

/-- Key spec string AES_128. -/
def specAES128 : List Nat := strBytes ("AES_128")

/-- Result dictionary of generate_data_key. -/
structure DataKeyOut where
  plaintext_key : List Nat
  encrypted_key : List Nat
  key_id : List Nat
  source : List Nat
deriving DecidableEq

/-- Errors that escape the key-management methods: the ValueError raised
by the local generator on an unsupported key spec, the ValueError raised
by the AEAD construction on a wrapping key of invalid length (logged and
re-raised by the local generator), and any AWS exception other than
ClientError, which the source does not catch. -/
inductive KmsError where
  | unsupportedKeySpec : KmsError
  | invalidKeyLength : KmsError
  | awsException (e : Nat) : KmsError
deriving DecidableEq

/-- Outcome of one AWS KMS generate-data-key call as seen by the caller:
a successful response, a ClientError (which the source catches and
recovers as None), or any other raised exception — connection or timeout
errors — which the source does not catch and therefore propagates. -/
inductive AwsOutcome where
  | resp (plaintext blob : List Nat) : AwsOutcome
  | clientError : AwsOutcome
  | raised (e : Nat) : AwsOutcome
deriving DecidableEq

/-- Key lengths accepted by the AESGCM construction: 128, 192 or 256
bits; any other length raises ValueError in the source. -/
def validAesKeyLen (k : List Nat) : Bool :=
  k.length == 16 || k.length == 24 || k.length == 32

/-- Model of KMSService._get_local_master_key: decode LOCAL_MASTER_KEY
from the environment when present and decodable, otherwise generate a
temporary master key (the freshly sampled bytes are the masterFresh
parameter). A new sample is drawn on every call. -/
def get_local_master_key (masterEnv : Option (List Nat))
    (masterFresh : List Nat) : List Nat :=
  match masterEnv with
  | some s =>
    match b64decode s with
    | some k => k
    | none => masterFresh
  | none => masterFresh

/-- Model of KMSService._generate_aws_data_key: resolves the key id from
the argument or settings (returning None when unresolved, before any AWS
call), then performs the AWS call: a ClientError is caught and recovered
as None, any other exception propagates to the caller. -/
def generate_aws_data_key (st : State) (key_id : Option (List Nat))
    (awsResp : AwsOutcome) : Except KmsError (Option DataKeyOut) :=
  match key_id <|> st.aws_kms_key_id with
  | none => .ok none
  | some kid =>
    match awsResp with
    | .raised e => .error (.awsException e)
    | .clientError => .ok none
    | .resp pt blob => .ok (some ⟨pt, blob, kid, strBytes ("aws_kms")⟩)

/-- Model of KMSService._generate_local_data_key: a fresh data key (the
freshKey parameter) wrapped by encrypting it under the local master key
with a fresh nonce; the stored blob is nonce plus wrapped key. Raises on
an unsupported key spec, and re-raises the ValueError of the AEAD
construction when the resolved master key does not have a valid AES key
length. -/
def generate_local_data_key (spec : List Nat) (freshKey nonce : List Nat)
    (masterEnv : Option (List Nat)) (masterFresh : List Nat) :
    Except KmsError DataKeyOut :=
  if spec = specAES256 ∨ spec = specAES128 then
    let master := get_local_master_key masterEnv masterFresh
    if validAesKeyLen master then
      let blob := nonce ++ gcmEncrypt master nonce freshKey
      .ok ⟨freshKey, blob, strBytes ("local-master-key"), strBytes ("local")⟩
    else .error .invalidKeyLength
  else .error .unsupportedKeySpec

/-- Model of KMSService.generate_data_key: AWS path when KMS is enabled
and a client is held, local path otherwise. -/
def generate_data_key (st : State) (key_id : Option (List Nat))
    (spec : List Nat) (awsResp : AwsOutcome)
    (freshKey nonce : List Nat) (masterEnv : Option (List Nat))
    (masterFresh : List Nat) : Except KmsError (Option DataKeyOut) :=
  if st.kms_enabled ∧ st.aws_client then
    generate_aws_data_key st key_id awsResp
  else
    (generate_local_data_key spec freshKey nonce masterEnv masterFresh).map some

/-- Model of KMSService._decrypt_local_data_key: split the stored blob
into nonce and wrapped key, resolve the master key again, and decrypt;
any failure — an invalid-length master key as well as a failed
authentication tag — is recovered as none by the method's own handler. -/
def decrypt_local_data_key (blob : List Nat)
    (masterEnv : Option (List Nat)) (masterFresh : List Nat) :
    Option (List Nat) :=
  let nonce := blob.take 12
  let wrapped := blob.drop 12
  let master := get_local_master_key masterEnv masterFresh
  if validAesKeyLen master then gcmDecrypt master nonce wrapped else none

/-- Model of KMSService.decrypt_data_key: AWS path when KMS is enabled
and a client is held (the remote response is the awsDecResp parameter),
local path otherwise. -/
def decrypt_data_key (st : State) (encrypted_key : List Nat)
    (awsDecResp : Option (List Nat)) (masterEnv : Option (List Nat))
    (masterFresh : List Nat) : Option (List Nat) :=
  if st.kms_enabled ∧ st.aws_client then awsDecResp
  else decrypt_local_data_key encrypted_key masterEnv masterFresh

/-- Model of KMSService.get_encryption_key, resolution as written in the
source: (1) the configured base64 AES_ENCRYPTION_KEY when present and
decodable, (2) a data key generated through generate_data_key when
kms_enabled, (3) a freshly generated temporary key. An error raised by
the generation tier propagates: this method installs no handler. -/
def get_encryption_key (st : State) (aesKeyCfg : Option (List Nat))
    (awsResp : AwsOutcome) (freshKey nonce : List Nat)
    (masterEnv : Option (List Nat)) (masterFresh tempFresh : List Nat) :
    Except KmsError (List Nat) :=
  let tier2 : Except KmsError (List Nat) :=
    if st.kms_enabled then
      match generate_data_key st none specAES256 awsResp freshKey nonce
          masterEnv masterFresh with
      | .error e => .error e
      | .ok (some dk) => .ok dk.plaintext_key
      | .ok none => .ok tempFresh
    else .ok tempFresh
  match aesKeyCfg with
  | some s =>
    match b64decode s with
    | some k => .ok k
    | none => tier2
  | none => tier2

/-- Model of KMSService.get_key_info, restricted to the kms_enabled flag
and the key_source field consumed by the encryption engine. -/
def get_key_info (st : State) : Bool × List Nat :=
  (st.kms_enabled,
    if st.kms_enabled then strBytes ("aws_kms") else strBytes ("local"))

end KMSService

/-!
Envelope encryption engine: DataProofEncryption in
app/services/data_proof_service.py.
-/

/-- JSON object key constant. -/
def kSummary : List Nat := strBytes ("summary")

/-- JSON object key constant. -/
def kEncryptedAt : List Nat := strBytes ("encrypted_at")

/-- JSON object key constant. -/
def kVersion : List Nat := strBytes ("version")

/-- JSON object key constant. -/
def kDataType : List Nat := strBytes ("data_type")

/-- JSON object key constant. -/
def kEncryptedData : List Nat := strBytes ("encrypted_data")

/-- JSON object key constant. -/
def kNonce : List Nat := strBytes ("nonce")

/-- JSON object key constant. -/
def kDataHash : List Nat := strBytes ("data_hash")

/-- JSON object key constant. -/
def kDate : List Nat := strBytes ("date")

/-- Python truthiness of a JSON value: None, False, zero, and the empty
string, array and object are falsy. -/
def pyTruthy : Json → Bool
  | .null => false
  | .bool b => b
  | .num n => n != 0
  | .str s => !(s.isEmpty)
  | .arr .nil => false
  | .arr _ => true
  | .obj .nil => false
  | .obj _ => true

namespace DataProofEncryption

/-- Model of DataProofEncryption._get_encryption_key: the KMS call result
(ok value, or error when the call raised), then the configured key, then
a freshly generated temporary key. -/
def get_encryption_key (kmsCall : Except Unit (List Nat))
    (aesKeyCfg : Option (List Nat)) (tempFresh : List Nat) : List Nat :=
  match kmsCall with
  | .ok k => k
  | .error _ =>
    match aesKeyCfg with
    | some s =>
      match b64decode s with
      | some k => k
      | none => tempFresh
    | none => tempFresh

/-- Result dictionary of encrypt_daily_summary. -/
structure EncryptResult where
  encrypted_data : List Nat
  nonce : List Nat
  algorithm : List Nat
  data_hash : List Nat
  kms_enabled : Bool
  key_source : List Nat
  encrypted_at : List Nat
  version : List Nat
  data_type : List Nat
deriving DecidableEq

/-- The enhanced payload built by encrypt_daily_summary around the caller
summary: summary plus encryption timestamp, version and data type. -/
def enhancedData (summary : Json) (now : List Nat) : Json :=
  .obj (.cons kSummary summary
    (.cons kEncryptedAt (.str now)
      (.cons kVersion (.str (strBytes ("1.0")))
        (.cons kDataType (.str (strBytes ("daily_summary"))) .nil))))

/-- Model of DataProofEncryption.encrypt_daily_summary: wrap the summary
in the enhanced payload, serialize it canonically, encrypt under the
engine key with a fresh 96-bit nonce, and compute the plaintext digest.
now and nonce are the sampled timestamp and nonce. -/
def encrypt_daily_summary (key : List Nat) (st : KMSService.State)
    (summary : Json) (now nonce : List Nat) : EncryptResult :=
  let jsonStr := json_dumps (enhancedData summary now)
  let ciphertext := gcmEncrypt key nonce jsonStr
  { encrypted_data := b64encode ciphertext
    nonce := b64encode nonce
    algorithm := strBytes ("AES-256-GCM")
    data_hash := sha256hex jsonStr
    kms_enabled := (KMSService.get_key_info st).1
    key_source := (KMSService.get_key_info st).2
    encrypted_at := now
    version := strBytes ("1.0")
    data_type := strBytes ("daily_summary") }

/-- Failure modes of decrypt_daily_summary, surfaced as distinct
exception kinds by the source. -/
inductive DecryptError where
  | invalidBase64 : DecryptError
  | invalidTag : DecryptError
  | integrityMismatch : DecryptError
  | invalidJson : DecryptError
deriving DecidableEq

/-- Model of DataProofEncryption.decrypt_daily_summary: base64-decode the
ciphertext and nonce, authenticated-decrypt, optionally verify the
plaintext digest against the expected hash (skipped when the supplied
value is falsy, as the source tests if expected_hash:), then parse the
plaintext as JSON. -/
def decrypt_daily_summary (key : List Nat)
    (encrypted_data nonce : List Nat) (expected_hash : Option Json) :
    Except DecryptError Json :=
  match b64decode encrypted_data with
  | none => .error .invalidBase64
  | some ciphertext =>
    match b64decode nonce with
    | none => .error .invalidBase64
    | some nonceBytes =>
      match gcmDecrypt key nonceBytes ciphertext with
      | none => .error .invalidTag
      | some plaintext =>
        let hashCheck : Except DecryptError Unit :=
          if (expected_hash.map pyTruthy).getD false then
            if expected_hash = some (.str (sha256hex plaintext)) then .ok ()
            else .error .integrityMismatch
          else .ok ()
        match hashCheck with
        | .error e => .error e
        | .ok _ =>
          match json_loads plaintext with
          | some j => .ok j
          | none => .error .invalidJson

end DataProofEncryption

/-!
Content-addressed store client: PinataService in
app/services/pinata_service.py. The sequence of backend outcomes is an
oracle parameter mapping the attempt index to an HTTP response status or
a transient network error; delays are recorded in abstract time units.
-/

/-- Successful response dictionary of PinataService.pin_json_to_ipfs as
consumed by the proof orchestrator. -/
structure PinResult where
  success : Bool
  cid : List Nat
  url : List Nat
  size : Nat
deriving DecidableEq

namespace PinataService

/-- Outcome of one backend request attempt: an HTTP response with a status
code, or a transient network failure (timeout, connect or read error). -/
inductive ReqOut where
  | resp (status : Nat) : ReqOut
  | netErr (e : Nat) : ReqOut
deriving DecidableEq

/-- Observable trace of one _retry_request run: total attempts made, the
sleep delays performed, and the final outcome (raised last exception,
returned response status, or returned None). -/
structure RetryResult where
  attempts : Nat
  delays : List Nat
  outcome : Except Nat (Option Nat)
deriving DecidableEq

/-- Model of the attempt loop of PinataService._retry_request, recursing
over the remaining iterations of range(max_retries + 1): a response with
status below 500 is returned at once; a 5xx response or a network error
(which updates the recorded last exception) falls through to the next
iteration, sleeping retry_delay times 2 to the attempt index when another
attempt remains; after the loop the last network exception is re-raised
if any, otherwise None is returned. -/
def retryGo (outcomes : Nat → ReqOut) (base maxRetries : Nat) :
    Nat → Nat → Option Nat → RetryResult
  | 0, _, lastExc =>
    ⟨0, [], match lastExc with | some e => .error e | none => .ok none⟩
  | remaining + 1, attempt, lastExc =>
    match outcomes attempt with
    | .resp s =>
      if s < 500 then ⟨1, [], .ok (some s)⟩
      else
        let rest := retryGo outcomes base maxRetries remaining (attempt + 1) lastExc
        ⟨rest.attempts + 1,
          (if attempt < maxRetries then [base * 2 ^ attempt] else [])
            ++ rest.delays,
          rest.outcome⟩
    | .netErr e =>
      let rest := retryGo outcomes base maxRetries remaining (attempt + 1) (some e)
      ⟨rest.attempts + 1,
        (if attempt < maxRetries then [base * 2 ^ attempt] else [])
          ++ rest.delays,
        rest.outcome⟩

/-- Model of PinataService._retry_request: run the loop for
max_retries + 1 attempts starting at attempt index 0 with no recorded
exception. -/
def retry_request (outcomes : Nat → ReqOut) (base maxRetries : Nat) :
    RetryResult :=
  retryGo outcomes base maxRetries (maxRetries + 1) 0 none

/-- Expected delay trace of a run of n retried attempts starting at the
given attempt index: one delay of base times 2 to the attempt index for
every attempt that still has a retry after it. -/
def delaysFrom (base maxRetries attempt : Nat) : Nat → List Nat
  | 0 => []
  | r + 1 =>
    (if attempt < maxRetries then [base * 2 ^ attempt] else [])
      ++ delaysFrom base maxRetries (attempt + 1) r

/-- An attempt outcome on which the source loop retries: an HTTP 5xx
response or a transient network error. -/
def retryable : ReqOut → Prop
  | .resp s => 500 ≤ s
  | .netErr _ => True

instance (o : ReqOut) : Decidable (retryable o) := by
  cases o <;> simp [retryable] <;> infer_instance

/-- Model of the response handling of PinataService.pin_json_to_ipfs
around its _retry_request call: a raised exception is recovered as None,
a missing response or a status other than 200 yields None, and a 200
response yields the success dictionary (whose cid, url and size come from
the remote response body). -/
def pin_json_to_ipfs (rr : RetryResult) (cid url : List Nat) (size : Nat) :
    Option PinResult :=
  match rr.outcome with
  | .error _ => none
  | .ok none => none
  | .ok (some s) => if s = 200 then some ⟨true, cid, url, size⟩ else none

end PinataService

/-!
Proof orchestrator: DataProofService in app/services/data_proof_service.py.
-/

namespace DataProofService

/-- Proof record appended to the in-memory index by create_daily_proof;
fields absent on the unencrypted branch are none. -/
structure ProofRecord where
  id : List Nat
  date : List Nat
  cid : List Nat
  url : List Nat
  encrypted : Bool
  nonce : Option (List Nat)
  data_hash : Option (List Nat)
  algorithm : Option (List Nat)
  size : Nat
  created_at : List Nat
  kms_enabled : Option Bool
  key_source : Option (List Nat)
deriving DecidableEq

/-- Error kinds raised by create_daily_proof: EncryptionException,
IPFSException, DataProofException. -/
inductive CreateError where
  | encryptionError : CreateError
  | ipfsError : CreateError
  | dataProofError : CreateError
deriving DecidableEq

/-- Decimal digit characters of a natural number, fuelled structurally. -/
def natDecimalAux : Nat → Nat → List Nat
  | 0, _ => []
  | f + 1, n => if n = 0 then [] else natDecimalAux f (n / 10) ++ [n % 10 + 48]

/-- Decimal character rendering of a natural number. -/
def natDecimal (n : Nat) : List Nat :=
  if n = 0 then [48] else natDecimalAux n n

/-- Record id generated by create_daily_proof from the creation timestamp:
the string proof_ followed by int(time.time()) in decimal; t is the whole
second drawn from the clock. -/
def recordId (t : Nat) : List Nat :=
  strBytes ("proof_") ++ natDecimal t

/-- Model of DataProofService.create_daily_proof. The stages that touch
the outside world are parameters: now and nonce feed the encryption
engine, pinOutcome is the pin_json_to_ipfs result (none models both a
returned None and a raised exception), dateStr and createdAt are the
date-stamped metadata strings, and t is the clock second read when the
record id is built. Returns the new record index and the created record,
or the error kind that aborted the pipeline. -/
def create_daily_proof (records : List ProofRecord) (key : List Nat)
    (st : KMSService.State) (daily_data : Json) (encrypt : Bool)
    (now nonce : List Nat) (pinOutcome : Option PinResult)
    (dateStr createdAt : List Nat) (t : Nat) :
    Except CreateError (List ProofRecord × ProofRecord) :=
  if encrypt then
    let encRes := DataProofEncryption.encrypt_daily_summary key st daily_data
      now nonce
    match pinOutcome with
    | none => .error .ipfsError
    | some pr =>
      if pr.success then
        let newRecord : ProofRecord :=
          { id := recordId t, date := dateStr, cid := pr.cid, url := pr.url
            encrypted := true, nonce := some encRes.nonce
            data_hash := some encRes.data_hash
            algorithm := some encRes.algorithm, size := pr.size
            created_at := createdAt, kms_enabled := some encRes.kms_enabled
            key_source := some encRes.key_source }
        .ok (records ++ [newRecord], newRecord)
      else .error .ipfsError
  else
    match pinOutcome with
    | none => .error .ipfsError
    | some pr =>
      if pr.success then
        let newRecord : ProofRecord :=
          { id := recordId t, date := dateStr, cid := pr.cid, url := pr.url
            encrypted := false, nonce := none, data_hash := none
            algorithm := none, size := pr.size, created_at := createdAt
            kms_enabled := none, key_source := none }
        .ok (records ++ [newRecord], newRecord)
      else .error .ipfsError

/-- Model of DataProofService.get_proof_records: exact-date filtering when
a truthy filter is supplied, otherwise a copy of the whole index. -/
def get_proof_records (records : List ProofRecord)
    (dateFilter : Option (List Nat)) : List ProofRecord :=
  match dateFilter with
  | some d => if d.isEmpty then records else records.filter (fun r => r.date == d)
  | none => records

/-- Field presence in an object body. -/
def fieldsHas (fs : JsonFields) (k : List Nat) : Bool :=
  match fs with
  | .nil => false
  | .cons k2 _ tl => (k2 == k) || fieldsHas tl k

/-- First-occurrence field lookup in an object body. -/
def fieldsGet (fs : JsonFields) (k : List Nat) : Option Json :=
  match fs with
  | .nil => none
  | .cons k2 v tl => if k2 == k then some v else fieldsGet tl k

/-- Membership of a string among the elements of an array body. -/
def jlistHasStr (xs : JsonList) (needle : List Nat) : Bool :=
  match xs with
  | .nil => false
  | .cons j tl => (j == Json.str needle) || jlistHasStr tl needle

/-- Model of the Python in operator as applied to a parsed JSON value:
key membership for objects, element membership for arrays, substring for
strings; TypeError (the error case) for the remaining values. -/
def pyContains (needle : List Nat) : Json → Except Unit Bool
  | .obj fs => .ok (fieldsHas fs needle)
  | .arr xs => .ok (jlistHasStr xs needle)
  | .str s => .ok (decide (needle <:+: s))
  | _ => .error ()

/-- Model of Python subscription value on a parsed JSON value: field
lookup on objects with KeyError on a missing key; TypeError elsewhere. -/
def pyIndex (j : Json) (k : List Nat) : Except Unit Json :=
  match j with
  | .obj fs =>
    match fieldsGet fs k with
    | some v => .ok v
    | none => .error ()
  | _ => .error ()

/-- Model of the dict get method on a parsed JSON value: optional field
lookup on objects; AttributeError (the error case) on other values. -/
def pyGetOpt (j : Json) (k : List Nat) : Except Unit (Option Json) :=
  match j with
  | .obj fs => .ok (fieldsGet fs k)
  | _ => .error ()

/-- Result of verify_daily_proof, restricted to the fields the claims
observe: failure kinds, and for successes the recovered value and the
optional non-fatal date_mismatch annotation of expected and actual date.
decryptFailed none models an exception raised around the decryption call
itself (argument extraction or date handling); decryptFailed some e
models a decryption error of kind e. -/
inductive VerifyResult where
  | fetchFailed : VerifyResult
  | invalidJson : VerifyResult
  | decryptFailed (e : Option DataProofEncryption.DecryptError) : VerifyResult
  | okEncrypted (decrypted : Json)
      (dateMismatch : Option (List Nat × Option Json)) : VerifyResult
  | okPlain (data : Json) : VerifyResult
  | unexpectedError : VerifyResult
deriving DecidableEq

/-- Whether a verification result came out of the decryption branch of
verify_daily_proof (successfully or not) rather than the plaintext branch
or an earlier failure. -/
def tookDecryption : VerifyResult → Bool
  | .decryptFailed _ => true
  | .okEncrypted _ _ => true
  | _ => false

/-- Whether a verification result carries a date_mismatch annotation. -/
def hasDateMismatch : VerifyResult → Bool
  | .okEncrypted _ (some _) => true
  | _ => false

/-- The short-circuit condition of verify_daily_proof testing presence of
the encrypted_data and nonce fields via the Python in operator; an error
is an uncaught TypeError handled by the outermost handler. -/
def envelopeCond (data : Json) : Except Unit Bool := do
  let b1 ← pyContains kEncryptedData data
  if b1 then pyContains kNonce data else pure false

/-- Extraction of the decryption arguments and the decryption call itself
as performed inside the inner try of verify_daily_proof; an error is an
exception raised while subscripting the parsed value or passing a
non-string argument to base64 decoding. -/
def decryptStage (key : List Nat) (data : Json) :
    Except Unit (Except DataProofEncryption.DecryptError Json) := do
  let ev ← pyIndex data kEncryptedData
  let nv ← pyIndex data kNonce
  let hv ← pyGetOpt data kDataHash
  match ev, nv with
  | .str es, .str ns =>
    pure (DataProofEncryption.decrypt_daily_summary key es ns hv)
  | _, _ => .error ()

/-- The date comparison of verify_daily_proof: when a truthy
expected_date is supplied, read the date embedded in the decrypted
summary and produce the non-fatal date_mismatch annotation when it
differs; an error is an exception raised by the dictionary access, still
inside the inner try. -/
def dateStage (j : Json) (expected_date : Option (List Nat)) :
    Except Unit (Option (List Nat × Option Json)) :=
  match expected_date with
  | some ed =>
    if ed.isEmpty then pure none
    else do
      let sv ← pyGetOpt j kSummary
      let actual ← pyGetOpt (sv.getD (.obj .nil)) kDate
      pure (if actual = some (.str ed) then none else some (ed, actual))
  | none => pure none

/-- The envelope branch of verify_daily_proof: decrypt, then compare
dates; exceptions near the decryption call are reported as a decryption
failure. -/
def envelopeResult (key : List Nat) (data : Json)
    (expected_date : Option (List Nat)) : VerifyResult :=
  match decryptStage key data with
  | .error _ => .decryptFailed none
  | .ok (.error e) => .decryptFailed (some e)
  | .ok (.ok j) =>
    match dateStage j expected_date with
    | .error _ => .decryptFailed none
    | .ok ann => .okEncrypted j ann

/-- Model of DataProofService.verify_daily_proof: fetch (the fetched
parameter is the gateway content, none for a failed retrieval; empty
content is falsy and also treated as failed), parse as JSON, dispatch on
presence of the encrypted_data and nonce fields, decrypt with the
embedded digest on the envelope path, and attach the non-fatal
date_mismatch annotation when a truthy expected_date disagrees with the
date embedded in the decrypted summary. -/
def verify_daily_proof (key : List Nat) (fetched : Option (List Nat))
    (expected_date : Option (List Nat)) : VerifyResult :=
  match fetched with
  | none => .fetchFailed
  | some content =>
    if content.isEmpty then .fetchFailed
    else
      match json_loads content with
      | none => .invalidJson
      | some data =>
        match envelopeCond data with
        | .error _ => .unexpectedError
        | .ok false => .okPlain data
        | .ok true => envelopeResult key data expected_date

end DataProofService

/-!
Roundtrip and auxiliary lemmas for the modelled primitives.
-/

theorem decNat_encNat (n : Nat) (rest : List Nat) :
    decNat (encNat n ++ rest) = some (n, rest) := by
  induction n with
  | zero => simp [encNat, decNat]
  | succ k ih => simp [encNat, decNat, ih]

theorem decBytes_encBytes (s rest : List Nat) :
    decBytes (encBytes s ++ rest) = some (s, rest) := by
  simp [decBytes, encBytes, decNat_encNat, List.take_left, List.drop_left]

theorem encNat_length (n : Nat) : (encNat n).length = n + 1 := by
  induction n with
  | zero => simp [encNat]
  | succ k ih => simp [encNat, ih]

theorem jenc_length_pos (j : Json) : 1 ≤ (jenc j).length := by
  cases j <;> simp [jenc]

theorem encBytes_length (s : List Nat) :
    (encBytes s).length = s.length + 1 + s.length := by
  simp [encBytes, encNat_length]

/-- The fuelled decoder inverts the serializer given enough fuel, for JSON
values, array bodies and object bodies simultaneously. -/
theorem jdec_spec (fuel : Nat) :
    (∀ j rest, (jenc j).length ≤ fuel →
      jdec fuel (jenc j ++ rest) = some (j, rest)) ∧
    (∀ xs rest, (jencList xs).length + 1 ≤ fuel →
      jdecList fuel (jlistLen xs) (jencList xs ++ rest) = some (xs, rest)) ∧
    (∀ fs rest, (jencFields fs).length + 1 ≤ fuel →
      jdecFields fuel (jfieldsLen fs) (jencFields fs ++ rest) = some (fs, rest)) := by
  induction fuel with
  | zero =>
    refine ⟨fun j rest h => ?_, fun xs rest h => ?_, fun fs rest h => ?_⟩
    · exact absurd h (by have := jenc_length_pos j; omega)
    · omega
    · omega
  | succ f ih =>
    obtain ⟨ih1, ih2, ih3⟩ := ih
    refine ⟨fun j rest h => ?_, fun xs rest h => ?_, fun fs rest h => ?_⟩
    · cases j with
      | null => simp [jenc, jdec]
      | bool b => cases b <;> simp [jenc, jdec]
      | num n => simp [jenc, jdec, decNat_encNat]
      | str s => simp [jenc, jdec, decBytes_encBytes]
      | arr xs =>
        have hL : (jencList xs).length + 1 ≤ f := by
          simp [jenc, encNat_length] at h; omega
        simp [jenc, jdec, List.append_assoc, decNat_encNat, ih2 xs rest hL]
      | obj fs =>
        have hL : (jencFields fs).length + 1 ≤ f := by
          simp [jenc, encNat_length] at h; omega
        simp [jenc, jdec, List.append_assoc, decNat_encNat, ih3 fs rest hL]
    · cases xs with
      | nil => simp [jencList, jlistLen, jdecList]
      | cons j tl =>
        have h1 : (jenc j).length ≤ f := by simp [jencList] at h; omega
        have h2 : (jencList tl).length + 1 ≤ f := by
          have := jenc_length_pos j; simp [jencList] at h; omega
        simp [jencList, jlistLen, jdecList, List.append_assoc,
          ih1 j _ h1, ih2 tl rest h2]
    · cases fs with
      | nil => simp [jencFields, jfieldsLen, jdecFields]
      | cons k v tl =>
        have h1 : (jenc v).length ≤ f := by
          simp [jencFields, encBytes_length] at h; omega
        have h2 : (jencFields tl).length + 1 ≤ f := by
          have := jenc_length_pos v
          simp [jencFields, encBytes_length] at h; omega
        simp [jencFields, jfieldsLen, jdecFields, List.append_assoc,
          decBytes_encBytes, ih1 v _ h1, ih3 tl rest h2]

/-- Canonical JSON serialization roundtrip: parsing a dumped value
recovers the value. -/
theorem json_loads_dumps (j : Json) : json_loads (json_dumps j) = some j := by
  have h : jdec (jenc j).length (jenc j) = some (j, []) := by
    simpa using (jdec_spec (jenc j).length).1 j [] le_rfl
  simp [json_loads, json_dumps, h]

theorem b64decode_b64encode (bs : List Nat) :
    b64decode (b64encode bs) = some bs := by
  induction bs with
  | nil => simp [b64encode, b64decode]
  | cons b tl ih =>
    simp [b64encode, b64decode, ih]
    omega

theorem gcmDecrypt_gcmEncrypt (key nonce plaintext : List Nat) :
    gcmDecrypt key nonce (gcmEncrypt key nonce plaintext) = some plaintext := by
  simp [gcmDecrypt, gcmEncrypt, tagOf, List.take, List.drop]

theorem sha256hex_ne_nil (data : List Nat) : sha256hex data ≠ [] := by
  simp [sha256hex]

/-!
Claim theorems.
-/

/-- C1 counterexample: decrypting the envelope produced by encrypting the
payload P given by the empty JSON object does not recover P itself — the
decrypted value is the enhanced wrapper, not P — so the claimed identity
decrypt(encrypt(P)) = P fails at this input. -/
theorem C1_decrypt_encrypt_not_identity :
    DataProofEncryption.decrypt_daily_summary [5]
        (DataProofEncryption.encrypt_daily_summary [5] ⟨false, false, none⟩
          (Json.obj .nil) [48] [7]).encrypted_data
        (DataProofEncryption.encrypt_daily_summary [5] ⟨false, false, none⟩
          (Json.obj .nil) [48] [7]).nonce
        none ≠ Except.ok (Json.obj .nil) := by
  decide

/-- C1 amended: for every payload P, key, nonce and timestamp, decrypting
the envelope produced by encrypting P recovers, byte-exactly after
canonical JSON re-serialization, the enhanced payload whose summary field
is P (not P itself). -/
theorem C1_roundtrip_enhanced (key : List Nat) (st : KMSService.State)
    (P : Json) (now nonce : List Nat) :
    DataProofEncryption.decrypt_daily_summary key
        (DataProofEncryption.encrypt_daily_summary key st P now nonce).encrypted_data
        (DataProofEncryption.encrypt_daily_summary key st P now nonce).nonce
        none =
      Except.ok (DataProofEncryption.enhancedData P now) ∧
    DataProofService.pyGetOpt (DataProofEncryption.enhancedData P now) kSummary =
      Except.ok (some P) := by
  constructor
  · simp [DataProofEncryption.decrypt_daily_summary,
      DataProofEncryption.encrypt_daily_summary, b64decode_b64encode,
      gcmDecrypt_gcmEncrypt, json_loads_dumps]
  · simp [DataProofService.pyGetOpt, DataProofEncryption.enhancedData,
      DataProofService.fieldsGet]

/-- C2 counterexample: in a configuration where the external KMS is
enabled and reachable (it would produce the key 20 21) and a decodable
static key 10 11 12 is also configured, get_encryption_key returns the
configured static key, not the KMS key, refuting the claimed resolution
order that consults the KMS first. -/
theorem C2_config_key_precedes_kms :
    KMSService.get_encryption_key ⟨true, true, some (strBytes ("kid"))⟩
        (some (b64encode [10, 11, 12])) (.resp [20, 21] [99])
        [1] [2] none [3] [4] =
      Except.ok [10, 11, 12] ∧ ([10, 11, 12] : List Nat) ≠ [20, 21] := by
  decide

/-- C2 amended: the resolution order actually implemented is (1) the
statically configured base64 key when present and decodable, (2) a data
key generated through the KMS path when kms_enabled and generation yields
a key, (3) the freshly generated ephemeral key; for every configuration
the first tier in that order that can produce a key is the one whose key
is returned. -/
theorem C2_resolution_order (st : KMSService.State)
    (aesKeyCfg : Option (List Nat)) (awsResp : KMSService.AwsOutcome)
    (freshKey nonce : List Nat) (masterEnv : Option (List Nat))
    (masterFresh tempFresh : List Nat) :
    (∀ s k, aesKeyCfg = some s → b64decode s = some k →
      KMSService.get_encryption_key st aesKeyCfg awsResp freshKey nonce
        masterEnv masterFresh tempFresh = .ok k) ∧
    (∀ dk, aesKeyCfg.bind b64decode = none → st.kms_enabled = true →
      KMSService.generate_data_key st none KMSService.specAES256 awsResp
        freshKey nonce masterEnv masterFresh = .ok (some dk) →
      KMSService.get_encryption_key st aesKeyCfg awsResp freshKey nonce
        masterEnv masterFresh tempFresh = .ok dk.plaintext_key) ∧
    (aesKeyCfg.bind b64decode = none →
      (st.kms_enabled = false ∨
        KMSService.generate_data_key st none KMSService.specAES256 awsResp
          freshKey nonce masterEnv masterFresh = .ok none) →
      KMSService.get_encryption_key st aesKeyCfg awsResp freshKey nonce
        masterEnv masterFresh tempFresh = .ok tempFresh) := by
  refine ⟨?_, ?_, ?_⟩
  · intro s k hs hk
    subst hs
    simp [KMSService.get_encryption_key, hk]
  · intro dk hcfg hen hgen
    cases haes : aesKeyCfg with
    | none => simp [KMSService.get_encryption_key, hen, hgen]
    | some s =>
      have hdec : b64decode s = none := by simpa [haes] using hcfg
      simp [KMSService.get_encryption_key, hdec, hen, hgen]
  · intro hcfg hdisj
    cases haes : aesKeyCfg with
    | none =>
      rcases hdisj with hoff | hnone
      · simp [KMSService.get_encryption_key, hoff]
      · cases hen : st.kms_enabled
        · simp [KMSService.get_encryption_key, hen]
        · simp [KMSService.get_encryption_key, hen, hnone]
    | some s =>
      have hdec : b64decode s = none := by simpa [haes] using hcfg
      rcases hdisj with hoff | hnone
      · simp [KMSService.get_encryption_key, hdec, hoff]
      · cases hen : st.kms_enabled
        · simp [KMSService.get_encryption_key, hdec, hen]
        · simp [KMSService.get_encryption_key, hdec, hen, hnone]

/-- C2 witness: the amended resolution order evaluated at a concrete
configuration where only the ephemeral tier can produce a key. -/
theorem C2_resolution_order_witness :
    KMSService.get_encryption_key ⟨false, false, none⟩ none .clientError
        [1] [2] none [3] [4] = Except.ok [4] :=
  (C2_resolution_order ⟨false, false, none⟩ none .clientError
      [1] [2] none [3] [4]).2.2
    (by decide) (Or.inl (by decide))

/-- C3: record atomicity of create_daily_proof. A new record is appended
to the index — and hence observed by get_proof_records — exactly when the
upload to the store succeeded; every successful run returns the old index
with exactly the created record appended, and every failed upload
(including after successful encryption, which the encrypted branch always
performs before uploading) aborts with an error and appends nothing. -/
theorem C3_record_iff_upload_success (records : List DataProofService.ProofRecord)
    (key : List Nat) (st : KMSService.State) (dd : Json) (enc : Bool)
    (now nonce : List Nat) (pinOutcome : Option PinResult)
    (dateStr createdAt : List Nat) (t : Nat) :
    ((∃ nr, DataProofService.create_daily_proof records key st dd enc now nonce
        pinOutcome dateStr createdAt t = .ok (records ++ [nr], nr)) ↔
      (∃ pr, pinOutcome = some pr ∧ pr.success = true)) ∧
    (∀ l nr, DataProofService.create_daily_proof records key st dd enc now nonce
        pinOutcome dateStr createdAt t = .ok (l, nr) →
      DataProofService.get_proof_records l none = records ++ [nr]) := by
  cases pinOutcome with
  | none =>
    cases enc <;>
      simp [DataProofService.create_daily_proof, DataProofService.get_proof_records]
  | some pr =>
    cases hs : pr.success with
    | false =>
      cases enc <;>
        simp [DataProofService.create_daily_proof,
          DataProofService.get_proof_records, hs]
    | true =>
      cases enc <;>
        simp [DataProofService.create_daily_proof,
          DataProofService.get_proof_records, hs]

/-- Against attempts that all fail retryably, the retry loop performs all
its iterations, sleeps the exponential-backoff schedule, and does not
return a response. -/
theorem retryGo_allfail (outcomes : Nat → PinataService.ReqOut)
    (base maxR : Nat) (hf : ∀ i, PinataService.retryable (outcomes i)) :
    ∀ r attempt lastExc,
      (PinataService.retryGo outcomes base maxR r attempt lastExc).attempts = r ∧
      (PinataService.retryGo outcomes base maxR r attempt lastExc).delays =
        PinataService.delaysFrom base maxR attempt r ∧
      ∀ s, (PinataService.retryGo outcomes base maxR r attempt lastExc).outcome ≠
        .ok (some s) := by
  intro r
  induction r with
  | zero =>
    intro attempt lastExc
    cases lastExc <;> simp [PinataService.retryGo, PinataService.delaysFrom]
  | succ n ih =>
    intro attempt lastExc
    have hfa := hf attempt
    cases ho : outcomes attempt with
    | resp s =>
      have h5 : ¬ s < 500 := by
        rw [ho] at hfa
        simp [PinataService.retryable] at hfa
        omega
      obtain ⟨iha, ihd, iho⟩ := ih (attempt + 1) lastExc
      refine ⟨?_, ?_, ?_⟩ <;>
        simp [PinataService.retryGo, ho, h5, PinataService.delaysFrom,
          iha, ihd, iho]
    | netErr e =>
      obtain ⟨iha, ihd, iho⟩ := ih (attempt + 1) (some e)
      refine ⟨?_, ?_, ?_⟩ <;>
        simp [PinataService.retryGo, ho, PinataService.delaysFrom,
          iha, ihd, iho]

/-- When the first non-retryable outcome is a response below 500 at
relative attempt k within the remaining budget, the retry loop stops
there and returns it, having slept once per preceding failed attempt. -/
theorem retryGo_first_success (outcomes : Nat → PinataService.ReqOut)
    (base maxR : Nat) :
    ∀ k r attempt lastExc s, k < r →
      (∀ i, i < k → PinataService.retryable (outcomes (attempt + i))) →
      outcomes (attempt + k) = .resp s → s < 500 →
      PinataService.retryGo outcomes base maxR r attempt lastExc =
        ⟨k + 1, PinataService.delaysFrom base maxR attempt k, .ok (some s)⟩ := by
  intro k
  induction k with
  | zero =>
    intro r attempt lastExc s hr hpre hk hs
    cases r with
    | zero => omega
    | succ n =>
      rw [Nat.add_zero] at hk
      simp [PinataService.retryGo, hk, hs, PinataService.delaysFrom]
  | succ m ih =>
    intro r attempt lastExc s hr hpre hk hs
    cases r with
    | zero => omega
    | succ n =>
      have h0 := hpre 0 (Nat.succ_pos m)
      rw [Nat.add_zero] at h0
      have hk' : outcomes (attempt + 1 + m) = .resp s := by
        rw [show attempt + 1 + m = attempt + (m + 1) by omega]
        exact hk
      have hpre' : ∀ i, i < m →
          PinataService.retryable (outcomes (attempt + 1 + i)) := by
        intro i hi
        rw [show attempt + 1 + i = attempt + (i + 1) by omega]
        exact hpre (i + 1) (by omega)
      cases ho : outcomes attempt with
      | resp s0 =>
        have h5 : ¬ s0 < 500 := by
          rw [ho] at h0
          simp [PinataService.retryable] at h0
          omega
        have rest := ih n (attempt + 1) lastExc s (by omega) hpre' hk' hs
        simp [PinataService.retryGo, ho, h5, rest, PinataService.delaysFrom]
      | netErr e =>
        have rest := ih n (attempt + 1) (some e) s (by omega) hpre' hk' hs
        simp [PinataService.retryGo, ho, rest, PinataService.delaysFrom]

/-- C4: retry and backoff behaviour of the store client with
max_retries = 3. Against a permanently failing backend (every attempt an
HTTP 5xx or a transient network error), exactly 4 total attempts are
made, the delay slept before retry k (counting retries from 0) is
base_delay times 2 to the k, no response is returned — so the enclosing
pin_json_to_ipfs reports upload failure, the condition on which the
orchestrator raises its store-unavailable error — and any attempt
answered with a status below 500 (2xx or 4xx alike) ends the loop at
once with that response, so only 5xx and network failures are retried. -/
theorem C4_retry_bound_and_backoff (outcomes : Nat → PinataService.ReqOut)
    (base : Nat) :
    ((∀ i, PinataService.retryable (outcomes i)) →
      (PinataService.retry_request outcomes base 3).attempts = 4 ∧
      (PinataService.retry_request outcomes base 3).delays =
        [base * 2 ^ 0, base * 2 ^ 1, base * 2 ^ 2] ∧
      (∀ s, (PinataService.retry_request outcomes base 3).outcome ≠
        .ok (some s)) ∧
      (∀ cid url size,
        PinataService.pin_json_to_ipfs
          (PinataService.retry_request outcomes base 3) cid url size = none)) ∧
    (∀ k s, k ≤ 3 → (∀ i, i < k → PinataService.retryable (outcomes i)) →
      outcomes k = .resp s → s < 500 →
      PinataService.retry_request outcomes base 3 =
        ⟨k + 1, PinataService.delaysFrom base 3 0 k, .ok (some s)⟩) := by
  have hreq : PinataService.retry_request outcomes base 3 =
      PinataService.retryGo outcomes base 3 4 0 none := rfl
  constructor
  · intro hf
    obtain ⟨ha, hd, ho⟩ := retryGo_allfail outcomes base 3 hf 4 0 none
    refine ⟨by rw [hreq]; exact ha, ?_, ?_, ?_⟩
    · rw [hreq, hd]
      simp [PinataService.delaysFrom]
    · intro s
      rw [hreq]
      exact ho s
    · intro cid url size
      rcases hout : (PinataService.retryGo outcomes base 3 4 0 none).outcome
        with e | os
      · simp [PinataService.pin_json_to_ipfs, hreq, hout]
      · cases os with
        | none => simp [PinataService.pin_json_to_ipfs, hreq, hout]
        | some s => exact absurd hout (ho s)
  · intro k s hk hpre hks hs
    rw [hreq]
    exact retryGo_first_success outcomes base 3 k 4 0 none s (by omega)
      (by simpa using hpre) (by simpa using hks) hs

/-- C4 witness: a backend answering 503 forever makes 4 attempts with
delays 1, 2, 4 under base delay 1, and the upload reports failure. -/
theorem C4_retry_bound_and_backoff_witness :
    (PinataService.retry_request (fun _ => .resp 503) 1 3).attempts = 4 ∧
    (PinataService.retry_request (fun _ => .resp 503) 1 3).delays = [1, 2, 4] ∧
    PinataService.pin_json_to_ipfs
      (PinataService.retry_request (fun _ => .resp 503) 1 3) [1] [2] 3 = none := by
  obtain ⟨ha, hd, _, hp⟩ :=
    (C4_retry_bound_and_backoff (fun _ => .resp 503) 1).1
      (fun i => by simp [PinataService.retryable])
  exact ⟨ha, by rw [hd]; decide, hp [1] [2] 3⟩

/-- C5: once authenticated decryption succeeds, supplying a non-empty
expected digest makes decrypt_daily_summary fail with the integrity
mismatch error exactly when the recomputed digest of the recovered
plaintext differs from the expected one; when the authentication tag does
not verify the failure is the distinct invalid-tag error, so the two
failure modes are distinguishable. -/
theorem C5_integrity_mismatch_iff_digest_differs (key ed nd h ct nb : List Nat)
    (hct : b64decode ed = some ct) (hnb : b64decode nd = some nb) :
    (∀ pt, gcmDecrypt key nb ct = some pt → h ≠ [] →
      (DataProofEncryption.decrypt_daily_summary key ed nd (some (.str h)) =
          .error .integrityMismatch ↔ h ≠ sha256hex pt)) ∧
    (gcmDecrypt key nb ct = none →
      DataProofEncryption.decrypt_daily_summary key ed nd (some (.str h)) =
        .error .invalidTag) ∧
    DataProofEncryption.DecryptError.invalidTag ≠
      DataProofEncryption.DecryptError.integrityMismatch := by
  refine ⟨?_, ?_, by decide⟩
  · intro pt hgcm hne
    have htr : pyTruthy (.str h) = true := by
      cases h with
      | nil => exact absurd rfl hne
      | cons a tl => simp [pyTruthy]
    by_cases heq : h = sha256hex pt
    · cases hjl : json_loads pt <;>
        simp [DataProofEncryption.decrypt_daily_summary, hct, hnb, hgcm,
          htr, heq, hjl]
    · simp [DataProofEncryption.decrypt_daily_summary, hct, hnb, hgcm,
        htr, heq]
  · intro hgcm
    simp [DataProofEncryption.decrypt_daily_summary, hct, hnb, hgcm]

/-- C5 witness: decrypting a genuine envelope with a wrong non-empty
expected digest fails with the integrity mismatch error. -/
theorem C5_integrity_mismatch_witness :
    DataProofEncryption.decrypt_daily_summary [5]
        (DataProofEncryption.encrypt_daily_summary [5] ⟨false, false, none⟩
          (Json.num 3) [48] [7]).encrypted_data
        (DataProofEncryption.encrypt_daily_summary [5] ⟨false, false, none⟩
          (Json.num 3) [48] [7]).nonce
        (some (.str [1, 2, 3])) = .error .integrityMismatch :=
  ((C5_integrity_mismatch_iff_digest_differs [5]
      (DataProofEncryption.encrypt_daily_summary [5] ⟨false, false, none⟩
        (Json.num 3) [48] [7]).encrypted_data
      (DataProofEncryption.encrypt_daily_summary [5] ⟨false, false, none⟩
        (Json.num 3) [48] [7]).nonce
      [1, 2, 3]
      (gcmEncrypt [5] [7]
        (json_dumps (DataProofEncryption.enhancedData (Json.num 3) [48])))
      [7] (by decide) (by decide)).1
    (json_dumps (DataProofEncryption.enhancedData (Json.num 3) [48]))
    (by decide) (by decide)).mpr (by decide)

/-- C6 counterexample: in local mode with no configured master key, the
master key is resolved afresh on every call, so a data key generated by
generate_data_key (wrapped under the ephemeral master 10 10) is not
recovered by decrypt_data_key (which resolves the different ephemeral
master 20 20): unwrapping returns none, not the plaintext key, refuting
the claimed inverse property for every generated data key. -/
theorem C6_unwrap_fails_with_ephemeral_master :
    (KMSService.generate_data_key ⟨false, false, none⟩ none
        KMSService.specAES256 .clientError [1, 2, 3, 4]
        [0, 1, 2, 3, 4, 5, 6, 7, 8, 9, 10, 11] none
        (List.replicate 32 10)).map
      (Option.map (fun dk => KMSService.decrypt_data_key ⟨false, false, none⟩
        dk.encrypted_key none none (List.replicate 32 20))) = .ok (some none) ∧
    (List.replicate 32 10 : List Nat) ≠ List.replicate 32 20 := by
  decide

/-- C6 amended: when the local master key is stably configured through the
environment (a decodable base64 value), unwrapping is the inverse of
generation — decrypt_data_key recovers exactly the plaintext key wrapped
by generate_data_key; with an ephemeral master key resolved per call the
inverse property fails (see the counterexample). -/
theorem C6_unwrap_inverse_with_configured_master (m freshKey nonce f1 f2 : List Nat)
    (hn : nonce.length = 12) (hv : KMSService.validAesKeyLen m = true) :
    (KMSService.generate_data_key ⟨false, false, none⟩ none
        KMSService.specAES256 .clientError freshKey nonce
        (some (b64encode m)) f1).map
      (Option.map (fun dk => KMSService.decrypt_data_key ⟨false, false, none⟩
        dk.encrypted_key none (some (b64encode m)) f2)) =
      .ok (some (some freshKey)) := by
  have hm1 : KMSService.get_local_master_key (some (b64encode m)) f1 = m := by
    simp [KMSService.get_local_master_key, b64decode_b64encode]
  have hm2 : KMSService.get_local_master_key (some (b64encode m)) f2 = m := by
    simp [KMSService.get_local_master_key, b64decode_b64encode]
  simp [KMSService.generate_data_key, KMSService.generate_local_data_key,
    KMSService.decrypt_data_key, KMSService.decrypt_local_data_key,
    Except.map, hm1, hm2, hv, List.take_left' hn, List.drop_left' hn,
    gcmDecrypt_gcmEncrypt]

/-- C6 witness: a concrete configured-master roundtrip recovers the
wrapped key. -/
theorem C6_unwrap_inverse_witness :
    (KMSService.generate_data_key ⟨false, false, none⟩ none
        KMSService.specAES256 .clientError [9]
        [0, 1, 2, 3, 4, 5, 6, 7, 8, 9, 10, 11]
        (some (b64encode (List.replicate 16 3))) [1]).map
      (Option.map (fun dk => KMSService.decrypt_data_key ⟨false, false, none⟩
        dk.encrypted_key none (some (b64encode (List.replicate 16 3))) [2])) =
      .ok (some (some [9])) :=
  C6_unwrap_inverse_with_configured_master (List.replicate 16 3) [9]
    [0, 1, 2, 3, 4, 5, 6, 7, 8, 9, 10, 11] [1] [2] (by decide) (by decide)

/-- Bind of a successful Except computation. -/
theorem exc_bind_ok {ε α β : Type} (a : α) (f : α → Except ε β) :
    ((Except.ok a : Except ε α) >>= f) = f a := rfl

/-- Bind of a failed Except computation. -/
theorem exc_bind_error {ε α β : Type} (e : ε) (f : α → Except ε β) :
    ((Except.error e : Except ε α) >>= f) = .error e := rfl

/-- Pure of the Except monad. -/
theorem exc_pure {ε α : Type} (a : α) :
    (pure a : Except ε α) = .ok a := rfl

/-- The envelope branch of verify_daily_proof always reports a
decryption-path outcome, successful or failed. -/
theorem tookDecryption_envelopeResult (key : List Nat) (data : Json)
    (ed : Option (List Nat)) :
    DataProofService.tookDecryption
      (DataProofService.envelopeResult key data ed) = true := by
  unfold DataProofService.envelopeResult
  cases hd : DataProofService.decryptStage key data with
  | error u => simp [DataProofService.tookDecryption]
  | ok inner =>
    cases inner with
    | error e => simp [DataProofService.tookDecryption]
    | ok j =>
      cases hdm : DataProofService.dateStage j ed <;>
        simp [hdm, DataProofService.tookDecryption]

/-- C7: verify_daily_proof dispatches on field presence. For every
fetched blob that parses as a JSON object, the decryption branch is taken
if and only if the object carries both the encrypted_data and the nonce
field — in particular a plaintext payload that happens to contain keys of
those literal names is sent to decryption (see the witness). -/
theorem C7_dispatch_on_field_presence (key content : List Nat)
    (ed : Option (List Nat)) (fs : JsonFields)
    (hparse : json_loads content = some (.obj fs)) :
    DataProofService.tookDecryption
        (DataProofService.verify_daily_proof key (some content) ed) = true ↔
      (DataProofService.fieldsHas fs kEncryptedData = true ∧
        DataProofService.fieldsHas fs kNonce = true) := by
  cases content with
  | nil => simp [json_loads, jdec] at hparse
  | cons c cs =>
    cases h1 : DataProofService.fieldsHas fs kEncryptedData with
    | false =>
      simp [DataProofService.verify_daily_proof, hparse,
        DataProofService.envelopeCond, DataProofService.pyContains, h1,
        exc_bind_ok, exc_pure, DataProofService.tookDecryption]
    | true =>
      cases h2 : DataProofService.fieldsHas fs kNonce with
      | false =>
        simp [DataProofService.verify_daily_proof, hparse,
          DataProofService.envelopeCond, DataProofService.pyContains, h1, h2,
          exc_bind_ok, exc_pure, DataProofService.tookDecryption]
      | true =>
        simp [DataProofService.verify_daily_proof, hparse,
          DataProofService.envelopeCond, DataProofService.pyContains, h1, h2,
          exc_bind_ok, exc_pure, tookDecryption_envelopeResult]

/-- C7 witness: a plaintext payload that happens to carry fields named
encrypted_data and nonce (here holding ordinary strings) is routed to the
decryption branch by verify_daily_proof. -/
theorem C7_dispatch_witness :
    DataProofService.tookDecryption
      (DataProofService.verify_daily_proof [5]
        (some (json_dumps (Json.obj (JsonFields.cons kEncryptedData
          (.str (strBytes ("hello"))) (JsonFields.cons kNonce
            (.str (strBytes ("world"))) (JsonFields.cons kDate
              (.str (strBytes ("2024-01-01"))) .nil))))))
        none) = true :=
  (C7_dispatch_on_field_presence [5]
    (json_dumps (Json.obj (JsonFields.cons kEncryptedData
      (.str (strBytes ("hello"))) (JsonFields.cons kNonce
        (.str (strBytes ("world"))) (JsonFields.cons kDate
          (.str (strBytes ("2024-01-01"))) .nil)))))
    none
    (JsonFields.cons kEncryptedData (.str (strBytes ("hello")))
      (JsonFields.cons kNonce (.str (strBytes ("world")))
        (JsonFields.cons kDate (.str (strBytes ("2024-01-01"))) .nil)))
    (json_loads_dumps _)).mpr ⟨by decide, by decide⟩

/-- C8 counterexample: a plaintext (non-envelope) proof whose payload
carries date 2024-01-01 verified with expectedDate 2024-01-02 returns a
successful result but with no dateMismatch annotation at all — the
claimed annotation for every verified proof, encrypted or not, fails on
the plaintext path, where the source performs no date comparison. -/
theorem C8_plaintext_no_date_annotation :
    DataProofService.verify_daily_proof [5]
        (some (json_dumps (Json.obj (JsonFields.cons kDate
          (.str (strBytes ("2024-01-01"))) .nil))))
        (some (strBytes ("2024-01-02"))) =
      .okPlain (Json.obj (JsonFields.cons kDate
        (.str (strBytes ("2024-01-01"))) .nil)) ∧
    DataProofService.hasDateMismatch
      (DataProofService.verify_daily_proof [5]
        (some (json_dumps (Json.obj (JsonFields.cons kDate
          (.str (strBytes ("2024-01-01"))) .nil))))
        (some (strBytes ("2024-01-02")))) = false := by
  decide

/-- C8 amended: the non-fatal date check applies to encrypted proofs
only. On the envelope path, when decryption succeeds and a truthy
expectedDate is supplied, the result is still successful and carries the
date_mismatch annotation of expected and actual exactly when the date
embedded in the recovered summary differs; on the plaintext path the
result is successful with no date comparison and never carries an
annotation. -/
theorem C8_date_mismatch_nonfatal_encrypted_only (key : List Nat)
    (data : Json) (ed : List Nat) (j : Json) (sv actual : Option Json)
    (hdec : DataProofService.decryptStage key data = .ok (.ok j))
    (hed : ed ≠ [])
    (hsv : DataProofService.pyGetOpt j kSummary = .ok sv)
    (hact : DataProofService.pyGetOpt (sv.getD (.obj .nil)) kDate = .ok actual) :
    DataProofService.envelopeResult key data (some ed) =
      .okEncrypted j
        (if actual = some (.str ed) then none else some (ed, actual)) ∧
    (∀ content d, json_loads content = some d →
      DataProofService.envelopeCond d = .ok false →
      DataProofService.verify_daily_proof key (some content) (some ed) =
        .okPlain d) ∧
    (∀ d, DataProofService.hasDateMismatch (.okPlain d) = false) := by
  refine ⟨?_, ?_, fun d => rfl⟩
  · have hie : ed.isEmpty = false := by
      cases ed with
      | nil => exact absurd rfl hed
      | cons a tl => rfl
    simp [DataProofService.envelopeResult, hdec, DataProofService.dateStage,
      hie, hsv, hact, exc_bind_ok, exc_pure]
  · intro content d hparse hcond
    cases content with
    | nil => simp [json_loads, jdec] at hparse
    | cons c cs =>
      simp [DataProofService.verify_daily_proof, hparse, hcond]

/-- C8 witness: verifying a genuine encrypted proof created for
2024-01-01 with expectedDate 2024-01-02 succeeds and carries the
annotation with expected 2024-01-02 and actual 2024-01-01. -/
theorem C8_date_mismatch_witness :
    DataProofService.envelopeResult [5]
        (Json.obj (JsonFields.cons kEncryptedData
          (.str (DataProofEncryption.encrypt_daily_summary [5]
            ⟨false, false, none⟩
            (Json.obj (JsonFields.cons kDate
              (.str (strBytes ("2024-01-01"))) .nil))
            [48] [7]).encrypted_data)
          (JsonFields.cons kNonce
            (.str (DataProofEncryption.encrypt_daily_summary [5]
              ⟨false, false, none⟩
              (Json.obj (JsonFields.cons kDate
                (.str (strBytes ("2024-01-01"))) .nil))
              [48] [7]).nonce)
            (JsonFields.cons kDataHash
              (.str (DataProofEncryption.encrypt_daily_summary [5]
                ⟨false, false, none⟩
                (Json.obj (JsonFields.cons kDate
                  (.str (strBytes ("2024-01-01"))) .nil))
                [48] [7]).data_hash)
              .nil))))
        (some (strBytes ("2024-01-02"))) =
      .okEncrypted
        (DataProofEncryption.enhancedData
          (Json.obj (JsonFields.cons kDate
            (.str (strBytes ("2024-01-01"))) .nil)) [48])
        (some (strBytes ("2024-01-02"),
          some (.str (strBytes ("2024-01-01"))))) := by
  have h := (C8_date_mismatch_nonfatal_encrypted_only [5]
    (Json.obj (JsonFields.cons kEncryptedData
      (.str (DataProofEncryption.encrypt_daily_summary [5]
        ⟨false, false, none⟩
        (Json.obj (JsonFields.cons kDate
          (.str (strBytes ("2024-01-01"))) .nil))
        [48] [7]).encrypted_data)
      (JsonFields.cons kNonce
        (.str (DataProofEncryption.encrypt_daily_summary [5]
          ⟨false, false, none⟩
          (Json.obj (JsonFields.cons kDate
            (.str (strBytes ("2024-01-01"))) .nil))
          [48] [7]).nonce)
        (JsonFields.cons kDataHash
          (.str (DataProofEncryption.encrypt_daily_summary [5]
            ⟨false, false, none⟩
            (Json.obj (JsonFields.cons kDate
              (.str (strBytes ("2024-01-01"))) .nil))
            [48] [7]).data_hash)
          .nil))))
    (strBytes ("2024-01-02"))
    (DataProofEncryption.enhancedData
      (Json.obj (JsonFields.cons kDate
        (.str (strBytes ("2024-01-01"))) .nil)) [48])
    (some (Json.obj (JsonFields.cons kDate
      (.str (strBytes ("2024-01-01"))) .nil)))
    (some (.str (strBytes ("2024-01-01"))))
    (by decide) (by decide) (by decide) (by decide)).1
  simpa using h

/-- C9: two create_daily_proof calls that complete within the same clock
second (the id source int(time.time()) reads the same value, here 7) both
succeed and append two distinct records carrying the same id — the
claimed in-process uniqueness of record ids is violated by the
second-granularity timestamp id scheme. -/
theorem C9_same_second_id_collision :
    ∃ l1 r1 l2 r2,
      DataProofService.create_daily_proof [] [5] ⟨false, false, none⟩
        (Json.num 3) true [48] [7] (some ⟨true, [1], [2], 3⟩) [50] [51] 7 =
        .ok (l1, r1) ∧
      DataProofService.create_daily_proof l1 [5] ⟨false, false, none⟩
        (Json.num 4) true [48] [9] (some ⟨true, [60], [61], 3⟩) [50] [51] 7 =
        .ok (l2, r2) ∧
      r1.id = r2.id ∧ r1 ≠ r2 := by
  refine ⟨_, _, _, _, rfl, rfl, by decide, by decide⟩

/-- C10 counterexample: KMSService.get_encryption_key can raise. With
KMS enabled and a client held, an AWS exception other than ClientError (a
connection or timeout failure, which the source does not catch)
propagates out of the generation tier; and with KMS enabled but no
client, a LOCAL_MASTER_KEY decoding to a length other than 16, 24 or 32
bytes makes the AEAD construction raise ValueError, re-raised by the
local generator. In both configurations no key is returned, refuting the
claimed no-raise totality at this interface. -/
theorem C10_get_encryption_key_raises :
    KMSService.get_encryption_key ⟨true, true, some (strBytes ("kid"))⟩ none
        (.raised 0) [1] [2] none [3] [4] = .error (.awsException 0) ∧
    KMSService.get_encryption_key ⟨true, false, none⟩ none .clientError
        [1] [2] (some (b64encode [1, 2, 3])) [3] [4] =
      .error .invalidKeyLength := by
  decide

/-- The data key generator never raises when invoked with the default
AES_256 key spec, provided the AWS call fails only in the way the source
catches and the resolved local master key has a valid AES length. -/
theorem generate_data_key_aes256_ok (st : KMSService.State)
    (awsResp : KMSService.AwsOutcome) (freshKey nonce : List Nat)
    (masterEnv : Option (List Nat)) (masterFresh : List Nat)
    (hA : ∀ e, awsResp ≠ .raised e)
    (hM : KMSService.validAesKeyLen
      (KMSService.get_local_master_key masterEnv masterFresh) = true) :
    ∃ r, KMSService.generate_data_key st none KMSService.specAES256 awsResp
      freshKey nonce masterEnv masterFresh = .ok r := by
  by_cases h : st.kms_enabled ∧ st.aws_client
  · cases hid : st.aws_kms_key_id with
    | none => exact ⟨none, by
        simp [KMSService.generate_data_key, h,
          KMSService.generate_aws_data_key, hid]⟩
    | some kid =>
      cases haws : awsResp with
      | resp pt blob => exact ⟨some ⟨pt, blob, kid, strBytes ("aws_kms")⟩, by
          simp [KMSService.generate_data_key, h,
            KMSService.generate_aws_data_key, hid]⟩
      | clientError => exact ⟨none, by
          simp [KMSService.generate_data_key, h,
            KMSService.generate_aws_data_key, hid]⟩
      | raised e => exact absurd haws (hA e)
  · exact ⟨some ⟨freshKey,
      nonce ++ gcmEncrypt (KMSService.get_local_master_key masterEnv masterFresh)
        nonce freshKey,
      strBytes ("local-master-key"), strBytes ("local")⟩,
      by simp [KMSService.generate_data_key, h,
        KMSService.generate_local_data_key, hM, Except.map]⟩

/-- C10 amended: key resolution is total on the recovered-failure
envelope. Whenever the AWS generation call fails only in the way the
source catches (a ClientError, recovered as None) and the resolved local
master key has a valid AES key length, KMSService.get_encryption_key
returns a key for every configuration — each tier's failure falls
through and the final tier unconditionally generates an ephemeral key,
the unsupported-key-spec raise being unreachable from this interface,
which always passes AES_256 — and when the configured-key tier fails
every remaining source is a 256-bit key. Outside that envelope the
method can raise (see the counterexample); the engine-level fallback in
DataProofEncryption, whose handler catches every exception from the KMS
call, still ends at its freshly generated key when that call raises and
the configured key is undecodable. -/
theorem C10_key_resolution_total_amended (st : KMSService.State)
    (aesKeyCfg : Option (List Nat)) (awsResp : KMSService.AwsOutcome)
    (freshKey nonce : List Nat) (masterEnv : Option (List Nat))
    (masterFresh tempFresh : List Nat)
    (hA : ∀ e, awsResp ≠ .raised e)
    (hM : KMSService.validAesKeyLen
      (KMSService.get_local_master_key masterEnv masterFresh) = true) :
    (∃ k, KMSService.get_encryption_key st aesKeyCfg awsResp freshKey nonce
      masterEnv masterFresh tempFresh = .ok k) ∧
    (aesKeyCfg.bind b64decode = none → freshKey.length = 32 →
      tempFresh.length = 32 →
      (∀ p b, awsResp = .resp p b → p.length = 32) →
      ∃ k, KMSService.get_encryption_key st aesKeyCfg awsResp freshKey nonce
        masterEnv masterFresh tempFresh = .ok k ∧ k.length = 32) ∧
    (aesKeyCfg.bind b64decode = none →
      DataProofEncryption.get_encryption_key (.error ()) aesKeyCfg tempFresh =
        tempFresh) := by
  refine ⟨?_, ?_, ?_⟩
  · obtain ⟨r, hr⟩ := generate_data_key_aes256_ok st awsResp freshKey nonce
      masterEnv masterFresh hA hM
    cases aesKeyCfg with
    | some s =>
      cases hb : b64decode s with
      | some k => exact ⟨k, by simp [KMSService.get_encryption_key, hb]⟩
      | none =>
        cases hen : st.kms_enabled with
        | false => exact ⟨tempFresh, by
            simp [KMSService.get_encryption_key, hb, hen]⟩
        | true =>
          cases r with
          | none => exact ⟨tempFresh, by
              simp [KMSService.get_encryption_key, hb, hen, hr]⟩
          | some dk => exact ⟨dk.plaintext_key, by
              simp [KMSService.get_encryption_key, hb, hen, hr]⟩
    | none =>
      cases hen : st.kms_enabled with
      | false => exact ⟨tempFresh, by simp [KMSService.get_encryption_key, hen]⟩
      | true =>
        cases r with
        | none => exact ⟨tempFresh, by
            simp [KMSService.get_encryption_key, hen, hr]⟩
        | some dk => exact ⟨dk.plaintext_key, by
            simp [KMSService.get_encryption_key, hen, hr]⟩
  · intro hcfg h32f h32t h32a
    have tier2_spec :
        ∃ k, (if st.kms_enabled then
          match KMSService.generate_data_key st none KMSService.specAES256
              awsResp freshKey nonce masterEnv masterFresh with
          | .error e => (.error e : Except KMSService.KmsError (List Nat))
          | .ok (some dk) => .ok dk.plaintext_key
          | .ok none => .ok tempFresh
        else .ok tempFresh) = .ok k ∧ k.length = 32 := by
      cases hen : st.kms_enabled with
      | false => exact ⟨tempFresh, by simp, h32t⟩
      | true =>
        by_cases hcl : st.kms_enabled ∧ st.aws_client
        · rw [show KMSService.generate_data_key st none KMSService.specAES256
              awsResp freshKey nonce masterEnv masterFresh =
              KMSService.generate_aws_data_key st none awsResp from by
            simp [KMSService.generate_data_key, hcl]]
          cases hid : st.aws_kms_key_id with
          | none => exact ⟨tempFresh, by
              simp [KMSService.generate_aws_data_key, hid], h32t⟩
          | some kid =>
            cases haws : awsResp with
            | resp pt blob => exact ⟨pt, by
                simp [KMSService.generate_aws_data_key, hid],
                h32a pt blob haws⟩
            | clientError => exact ⟨tempFresh, by
                simp [KMSService.generate_aws_data_key, hid], h32t⟩
            | raised e => exact absurd haws (hA e)
        · rw [show KMSService.generate_data_key st none KMSService.specAES256
              awsResp freshKey nonce masterEnv masterFresh =
              .ok (some ⟨freshKey,
                nonce ++ gcmEncrypt
                  (KMSService.get_local_master_key masterEnv masterFresh)
                  nonce freshKey,
                strBytes ("local-master-key"), strBytes ("local")⟩) from by
            simp [KMSService.generate_data_key, hcl,
              KMSService.generate_local_data_key, hM, Except.map]]
          exact ⟨freshKey, by simp, h32f⟩
    obtain ⟨k, hk, h32⟩ := tier2_spec
    cases aesKeyCfg with
    | some s =>
      have hb : b64decode s = none := by simpa using hcfg
      exact ⟨k, by
        rw [show KMSService.get_encryption_key st (some s) awsResp freshKey
            nonce masterEnv masterFresh tempFresh =
            (if st.kms_enabled then
              match KMSService.generate_data_key st none KMSService.specAES256
                  awsResp freshKey nonce masterEnv masterFresh with
              | .error e => .error e
              | .ok (some dk) => .ok dk.plaintext_key
              | .ok none => .ok tempFresh
            else .ok tempFresh) from by
          simp [KMSService.get_encryption_key, hb]]
        exact hk, h32⟩
    | none =>
      exact ⟨k, by
        rw [show KMSService.get_encryption_key st none awsResp freshKey
            nonce masterEnv masterFresh tempFresh =
            (if st.kms_enabled then
              match KMSService.generate_data_key st none KMSService.specAES256
                  awsResp freshKey nonce masterEnv masterFresh with
              | .error e => .error e
              | .ok (some dk) => .ok dk.plaintext_key
              | .ok none => .ok tempFresh
            else .ok tempFresh) from by
          simp [KMSService.get_encryption_key]]
        exact hk, h32⟩
  · intro hcfg
    cases aesKeyCfg with
    | some s =>
      have hb : b64decode s = none := by simpa using hcfg
      simp [DataProofEncryption.get_encryption_key, hb]
    | none => simp [DataProofEncryption.get_encryption_key]

/-- C10 witness: with no configured key, KMS disabled, a recovered AWS
failure and a valid-length ephemeral master, a 256-bit key is returned. -/
theorem C10_key_resolution_total_witness :
    ∃ k, KMSService.get_encryption_key ⟨false, false, none⟩ none .clientError
        (List.replicate 32 1) [2] none (List.replicate 32 3)
        (List.replicate 32 4) =
      .ok k ∧ k.length = 32 :=
  (C10_key_resolution_total_amended ⟨false, false, none⟩ none .clientError
      (List.replicate 32 1) [2] none (List.replicate 32 3)
      (List.replicate 32 4)
      (fun e h => KMSService.AwsOutcome.noConfusion h) (by decide)).2.1
    (by decide) (by decide) (by decide)
    (fun p b h => KMSService.AwsOutcome.noConfusion h)

/-- C3 witness: a concrete successful upload appends exactly one record. -/
theorem C3_record_iff_upload_success_witness :
    ∃ nr, DataProofService.create_daily_proof [] [5] ⟨false, false, none⟩
        (Json.num 3) true [48] [7] (some ⟨true, [9], [8], 4⟩) [50] [51] 12 =
      .ok ([] ++ [nr], nr) :=
  (C3_record_iff_upload_success [] [5] ⟨false, false, none⟩ (Json.num 3) true
      [48] [7] (some ⟨true, [9], [8], 4⟩) [50] [51] 12).1.mpr
    ⟨⟨true, [9], [8], 4⟩, rfl, rfl⟩
